import Mathlib

/-!
Verification of the WireGuard client-lifecycle manager (`wireguard.py` together
with the `wireguard_clients` table of `sqlite.py`).

The program text is shallowly embedded: Python strings become `List Char`,
the on-disk server configuration document becomes an optional list of lines,
the per-client configuration files become an association list from path to
content, and the SQLite `wireguard_clients` table becomes a list of records.
External effects (the `wg` tool, file-system write failures, SQLite errors,
the clock) are supplied through an explicit environment so that each failure
mode the source code reacts to can be exercised.
-/

namespace Userbot

/-- Python strings are modelled as lists of characters. -/
abbrev Str := List Char

/-- Embed a Lean string literal as a character list. -/
def str (s : String) : Str := s.data

deriving instance DecidableEq for Except

/-- Python whitespace as used by `str.strip` and `\s` (ASCII range). -/
def pySpace (c : Char) : Bool :=
  c = ' ' || c = '\t' || c = '\n' || c = '\r' || c = '\x0b' || c = '\x0c'

/-- Python `str.strip()`: remove leading and trailing whitespace. -/
def pyStrip (cs : Str) : Str :=
  ((cs.dropWhile pySpace).reverse.dropWhile pySpace).reverse

/-- Boolean substring test; models Python's `in` operator on strings. -/
def containsSub (pat : Str) : Str → Bool
  | [] => pat.isPrefixOf []
  | c :: rest => pat.isPrefixOf (c :: rest) || containsSub pat rest

theorem containsSub_iff (pat : Str) (s : Str) :
    containsSub pat s = true ↔ pat <:+: s := by
  induction s with
  | nil =>
    simp [containsSub, List.infix_nil, List.isPrefixOf_iff_prefix]
  | cons c rest ih =>
    simp [containsSub, List.infix_cons_iff, List.isPrefixOf_iff_prefix, ih]

/-- Fuel-indexed worker for `pyReplaceDrop`: structural recursion on the
fuel, which starts at the input length and, because every recursive call
strictly shrinks the text (each occurrence consumed is non-empty), is never
exhausted. -/
def pyReplaceDropGo (pat : Str) : Nat → Str → Str
  | 0, cs => cs
  | _, [] => []
  | fuel + 1, c :: rest =>
    if pat.isPrefixOf (c :: rest) && !pat.isEmpty then
      pyReplaceDropGo pat fuel ((c :: rest).drop pat.length)
    else
      c :: pyReplaceDropGo pat fuel rest

/-- Python `line.replace(pat, "")` (delete every occurrence of `pat`),
as used on the `"### Client "` sentinel when listing names. -/
def pyReplaceDrop (pat cs : Str) : Str := pyReplaceDropGo pat cs.length cs

/-- Decimal value of a digit run, as Python's `int` on the regex group. -/
def digitsVal (cs : Str) : Nat :=
  cs.foldl (fun a c => a * 10 + (c.toNat - 48)) 0

/-- Decimal rendering of a number, as Python's f-string interpolation. -/
def natStr (n : Nat) : Str := (Nat.repr n).data

/-- The sentinel header line content `"### Client <name>"` that delimits a
peer section in the server configuration document. -/
def sentinel (name : Str) : Str := str "### Client " ++ name

/-- The WireGuard client dataclass (`WireGuardClient`). -/
structure Client where
  name : Str
  ipv4 : Str
  ipv6 : Str
  publicKey : Str
  privateKey : Str
  presharedKey : Str
  configFile : Str
deriving DecidableEq, Repr

/-- One row of the `wireguard_clients` SQLite table. -/
structure Rec where
  name : Str
  ipv4 : Str
  ipv6 : Str
  publicKey : Str
  privateKey : Str
  presharedKey : Str
  configFile : Str
  createdAt : Nat
  createdBy : Nat
deriving DecidableEq, Repr

/-- Server parameters loaded from `/etc/wireguard/params`
(after applying the source's `params.get(..., default)` calls). -/
structure Params where
  nic : Str
  serverIp4 : Str
  serverIp6 : Str
  pubIp : Str
  port : Str
  pubKey : Str
  dns1 : Str
  dns2 : Str
  allowedIps : Str
deriving DecidableEq, Repr

/-- Combined store state: per-client config files (path to content), the
server configuration document (`none` when the file does not exist, otherwise
its lines without trailing newlines), and the SQLite table rows in insertion
order. -/
structure St where
  files : List (Str × Str)
  doc : Option (List Str)
  db : List Rec
deriving DecidableEq, Repr

/-- Outcome of one invocation of the external sync tool chain
(`wg-quick strip` piped into `wg syncconf`). -/
inductive SyncOutcome
  | ok
  | toolMissing
  | exitNonZero
deriving DecidableEq, Repr

/-- Error taxonomy of the lifecycle operations, following the exceptions the
source raises: `validation` and `conflict` are the two `ValueError` cases,
`exhausted` is the `RuntimeError` for a full address pool, `toolError` is a
key-generation tool failure propagating out of `_generate_keys`, and
`runtime` is the wrapping `RuntimeError` raised by the `except` blocks. -/
inductive Err
  | validation
  | conflict
  | exhausted
  | toolError
  | runtime
deriving DecidableEq, Repr

/-- Environment of external effects: the key triple produced by the `wg`
tool (`none` when a subprocess invocation fails), whether the client-file
write and the server-config rewrite succeed, the sync-tool outcome, whether
the SQLite INSERT avoids an `sqlite3.Error`, the `wg pubkey` derivation used
while parsing an existing client file (`none` models a
`CalledProcessError`), whether the `wg` binary is missing during that parse
(`FileNotFoundError`), and the current time. -/
structure Env where
  keygen : Option (Str × Str × Str)
  writeOk : Bool
  updateOk : Bool
  sync : SyncOutcome
  dbInsertOk : Bool
  derivePub : Str → Option Str
  wgMissing : Bool
  now : Nat

/-! ## File store and database primitives -/

/-- Look up a client config file by path. -/
def lookupFile (fs : List (Str × Str)) (p : Str) : Option Str :=
  (fs.find? (fun e => e.1 == p)).map (·.2)

/-- Open a file for writing (`open(path, "w")`): create or overwrite. -/
def writeFile (fs : List (Str × Str)) (p content : Str) : List (Str × Str) :=
  (p, content) :: fs.filter (fun e => !(e.1 == p))

/-- Delete a file if present (`os.remove` guarded by an existence check). -/
def removeFile (fs : List (Str × Str)) (p : Str) : List (Str × Str) :=
  fs.filter (fun e => !(e.1 == p))

/-- SQLite `wireguard_client_exists`. -/
def dbExists (db : List Rec) (name : Str) : Bool :=
  db.any (fun r => r.name == name)

/-- SQLite `get_wireguard_client`. -/
def dbGet (db : List Rec) (name : Str) : Option Rec :=
  db.find? (fun r => r.name == name)

/-- SQLite `add_wireguard_client`: the INSERT succeeds only when no
`sqlite3.Error` occurs; the UNIQUE constraint on `name` makes an insert of a
duplicate name fail (returning `False`), any other error is modelled by the
environment flag. -/
def dbAdd (ok : Bool) (db : List Rec) (r : Rec) : Bool × List Rec :=
  if ok && !(dbExists db r.name) then (true, db ++ [r]) else (false, db)

/-- SQLite `remove_wireguard_client`: DELETE by name, reporting whether a
row was deleted. -/
def dbRemove (db : List Rec) (name : Str) : Bool × List Rec :=
  (dbExists db name, db.filter (fun r => !(r.name == name)))

/-! ## Config document primitives -/

/-- Reassemble the document content from its lines, each line terminated by a
newline; `client_exists` and the allocators read this whole-file text. -/
def renderDoc (lines : List Str) : Str :=
  lines.foldr (fun l acc => l ++ '\n' :: acc) []

/-- Path (within the clients directory) of a client's config file:
`f"{nic}-client-{name}.conf"`. -/
def clientPath (sp : Params) (name : Str) : Str :=
  sp.nic ++ str "-client-" ++ name ++ str ".conf"

/-- `client_exists`: substring search for the sentinel in the whole document
text; `False` when the server configuration file does not exist. -/
def clientExists (sp : Params) (st : St) (name : Str) : Bool :=
  match st.doc with
  | none => false
  | some lines => containsSub (sentinel name) (renderDoc lines)

/-- The scanning loop of `_update_server_config`: walk the lines; a line
containing the sentinel (as a substring) records the section start; after a
start has been recorded, the first blank line (`line.strip() == ""`) records
the section end and stops the scan. -/
def findBoundsGo (sent : Str) (i : Nat) (start : Option Nat) :
    List Str → Option Nat × Option Nat
  | [] => (start, none)
  | l :: rest =>
    if containsSub sent l then
      findBoundsGo sent (i + 1) (some i) rest
    else
      match start with
      | none => findBoundsGo sent (i + 1) none rest
      | some s =>
        if (pyStrip l).isEmpty then (some s, some i)
        else findBoundsGo sent (i + 1) (some s) rest

/-- Section bounds for a client name as computed by `_update_server_config`. -/
def findBounds (sent : Str) (lines : List Str) : Option Nat × Option Nat :=
  findBoundsGo sent 0 none lines

/-- The peer section rendered by `_update_server_config` for a client: the
f-string starts and ends with a newline, so as lines it is a blank line
followed by the header and the `[Peer]` block. -/
def renderSection (c : Client) : List Str :=
  [[], str "### Client " ++ c.name, str "[Peer]",
   str "PublicKey = " ++ c.publicKey,
   str "PresharedKey = " ++ c.presharedKey,
   str "AllowedIPs = " ++ c.ipv4 ++ str "/32," ++ c.ipv6 ++ str "/128"]

/-- The in-memory edit of `_update_server_config`: with `section? = none` the
found slice is deleted (`remove=True`); with `section? = some sec` the slice
is replaced by the rendered section, or the section is appended when the
name was not found.  A found start with no following blank line makes the
slice extend to the end of the document. -/
def updateServerConfigLines (name : Str) (section? : Option (List Str))
    (lines : List Str) : List Str :=
  match findBounds (sentinel name) lines, section? with
  | (none, _), none => lines
  | (none, _), some sec => lines ++ sec
  | (some s, none), none => lines.take s
  | (some s, none), some sec => lines.take s ++ sec
  | (some s, some e), none => lines.take s ++ lines.drop (e + 1)
  | (some s, some e), some sec => lines.take s ++ sec ++ lines.drop (e + 1)

/-! ## Address allocators -/

/-- One regex match attempt at the current position for the pattern
`<base>(\d+)` (the base is regex-escaped, so literal): on success return the
numeric value of the maximal digit run and the remaining text after the
match, mirroring `re.finditer`'s non-overlapping scan. -/
def matchBaseAt (base cs : Str) : Option (Nat × Str) :=
  if base.isPrefixOf cs then
    if ((cs.drop base.length).takeWhile Char.isDigit).isEmpty then none
    else
      some (digitsVal ((cs.drop base.length).takeWhile Char.isDigit),
        (cs.drop base.length).drop ((cs.drop base.length).takeWhile Char.isDigit).length)
  else none

/-- Fuel-indexed worker for `scanUsed`: structural recursion on the fuel,
which starts at the input length and, because a successful match always
consumes at least one character (the digit run is non-empty), is never
exhausted. -/
def scanUsedGo (base : Str) : Nat → Str → List Nat
  | 0, _ => []
  | _, [] => []
  | fuel + 1, c :: rest =>
    match matchBaseAt base (c :: rest) with
    | some (n, rem) => n :: scanUsedGo base fuel rem
    | none => scanUsedGo base fuel rest

/-- The `re.finditer` loop collecting every used host index: scan left to
right, at each position try the pattern `<base>(\d+)`, consume the match on
success, otherwise advance one character. -/
def scanUsed (base cs : Str) : List Nat := scanUsedGo base cs.length cs

/-- The IPv4 base: `".".join(server_ip.split(".")[:-1])`. -/
def baseIp4 (serverIp : Str) : Str :=
  List.intercalate [ '.' ] ((List.splitOn '.' serverIp).dropLast)

/-- The IPv6 base: `server_ipv6.rsplit(":", 1)[0] + ":"`. -/
def baseIp6 (serverIp6 : Str) : Str :=
  if serverIp6.contains ':' then
    ((serverIp6.reverse.dropWhile (fun c => !(c == ':'))).drop 1).reverse ++ [ ':' ]
  else
    serverIp6 ++ [ ':' ]

/-- The `for i in range(2, 255)` first-fit loop. -/
def findFreeFrom (used : List Nat) : Nat → Nat → Option Nat
  | _, 0 => none
  | i, fuel + 1 => if used.contains i then findFreeFrom used (i + 1) fuel else some i

/-- `_get_available_ipv4`: `none` when the server configuration file does not
exist or no index in `[2, 254]` is free; otherwise the lowest free address. -/
def getAvailableIPv4 (sp : Params) (doc? : Option (List Str)) : Option Str :=
  match doc? with
  | none => none
  | some lines =>
    let base := baseIp4 sp.serverIp4
    let used := scanUsed (base ++ [ '.' ]) (renderDoc lines)
    (findFreeFrom used 2 253).map (fun i => base ++ '.' :: natStr i)

/-- `_get_available_ipv6`: same first-fit scheme over the IPv6 base prefix. -/
def getAvailableIPv6 (sp : Params) (doc? : Option (List Str)) : Option Str :=
  match doc? with
  | none => none
  | some lines =>
    let base := baseIp6 sp.serverIp6
    let used := scanUsed base (renderDoc lines)
    (findFreeFrom used 2 253).map (fun i => base ++ natStr i)

/-! ## Name validation -/

/-- One character of the class `[a-zA-Z0-9_-]`. -/
def isNameChar (c : Char) : Bool :=
  ('a' ≤ c && c ≤ 'z') || ('A' ≤ c && c ≤ 'Z') || ('0' ≤ c && c ≤ '9') ||
    c = '_' || c = '-'

/-- Python `re.match(r"^[a-zA-Z0-9_-]+$", name)` as a total predicate.  In
Python's `re`, `$` matches at the end of the string or just before a single
newline at the end of the string, so a name consisting of class characters
followed by one final `'\n'` is also accepted by the regex. -/
def reFullNameMatch (cs : Str) : Bool :=
  (!cs.isEmpty && cs.all isNameChar) ||
    (cs.getLast? == some '\n' && !cs.dropLast.isEmpty && cs.dropLast.all isNameChar)

/-- The name validation of `add_client` and `rename_client`:
`if not re.match(r"^[a-zA-Z0-9_-]+$", name) or len(name) > 15: raise`. -/
def validName (cs : Str) : Bool :=
  reFullNameMatch cs && cs.length ≤ 15

/-! ## Interface sync adapter -/

/-- The raw external sync invocation: any tool failure is an error. -/
def syncRaw (o : SyncOutcome) : Except Err Unit :=
  match o with
  | .ok => .ok ()
  | .toolMissing => .error .toolError
  | .exitNonZero => .error .toolError

/-- `_sync_wireguard_safe`: the `except subprocess.CalledProcessError` and
`except FileNotFoundError` handlers log a warning and swallow the failure,
so the adapter itself never reports an error. -/
def syncSafe (o : SyncOutcome) : Except Err Unit :=
  match syncRaw o with
  | .ok _ => .ok ()
  | .error _ => .ok ()

/-! ## Client config file rendering -/

/-- The endpoint rendering of `_create_client_config`: bracket a literal
IPv6 public address. -/
def renderEndpoint (sp : Params) : Str :=
  if sp.pubIp.contains ':' && !((str "[").isPrefixOf sp.pubIp) then
    '[' :: sp.pubIp ++ str "]:" ++ sp.port
  else
    sp.pubIp ++ ':' :: sp.port

/-- The client configuration file content rendered by
`_create_client_config`. -/
def renderClientConfig (sp : Params) (c : Client) : Str :=
  str "[Interface]\nPrivateKey = " ++ c.privateKey ++
    str "\nAddress = " ++ c.ipv4 ++ str "/32," ++ c.ipv6 ++
    str "/128\nDNS = " ++ sp.dns1 ++ ',' :: sp.dns2 ++
    str "\n\n[Peer]\nPublicKey = " ++ sp.pubKey ++
    str "\nPresharedKey = " ++ c.presharedKey ++
    str "\nEndpoint = " ++ renderEndpoint sp ++
    str "\nAllowedIPs = " ++ sp.allowedIps ++ str "\n"

/-! ## Public-key lookup in the server document -/

/-- Value of a `PublicKey = ...` line: `line.split("=", 1)[1].strip()`. -/
def kvValue (l : Str) : Str :=
  pyStrip ((l.dropWhile (fun c => !(c == '='))).drop 1)

/-- `_get_client_public_key_from_config`: scan the document lines; at each
line that starts with `"### Client"` and contains the name as a substring,
look in the following nine lines for the first line starting with
`"PublicKey = "`; if none is found there, continue the outer scan with the
next line. -/
def pubkeyScan (name : Str) : List Str → Option Str
  | [] => none
  | l :: rest =>
    if (str "### Client").isPrefixOf l && containsSub name l then
      match (rest.take 9).find? (fun m => (str "PublicKey = ").isPrefixOf m) with
      | some m => some (kvValue m)
      | none => pubkeyScan name rest
    else pubkeyScan name rest

/-- Document-level wrapper of the scan (`None` when the server configuration
file does not exist). -/
def getClientPubkeyFromConfig (sp : Params) (st : St) (name : Str) : Option Str :=
  match st.doc with
  | none => none
  | some lines => pubkeyScan name lines

/-! ## add_client -/

/-- `add_client`.  The pipeline mirrors the source: validate the name, check
both stores for a conflict, allocate both addresses, generate the key
triple (outside the `try` block, so a tool failure propagates directly),
then inside the `try` block write the client file, rewrite the server
document, best-effort sync, and insert the registry row (an insert failure
is only logged).  Any exception in the `try` block deletes the
just-written client file (when `client.config_file` was already set) and is
re-raised as a wrapping `RuntimeError`.  I/O failures are modelled as
occurring before the corresponding mutation. -/
def addClient (env : Env) (sp : Params) (st : St) (name : Str) (createdBy : Nat) :
    Except Err Client × St :=
  if !(validName name) then (.error .validation, st)
  else if clientExists sp st name || dbExists st.db name then (.error .conflict, st)
  else
    match getAvailableIPv4 sp st.doc, getAvailableIPv6 sp st.doc with
    | some ipv4, some ipv6 =>
      match env.keygen with
      | none => (.error .toolError, st)
      | some (priv, pub, psk) =>
        if !env.writeOk then
          -- the file write itself raised; `client.config_file` is still ""
          -- so the except-block deletes nothing
          (.error .runtime, st)
        else
          let path := clientPath sp name
          let client : Client := ⟨name, ipv4, ipv6, pub, priv, psk, path⟩
          let files1 := writeFile st.files path (renderClientConfig sp client)
          match st.doc with
          | none =>
            -- `_update_server_config` raises FileNotFoundError
            (.error .runtime, { st with files := removeFile files1 path })
          | some lines =>
            if !env.updateOk then
              (.error .runtime, { st with files := removeFile files1 path })
            else
              let doc1 := updateServerConfigLines name (some (renderSection client)) lines
              match syncSafe env.sync with
              | .error _ => (.error .runtime, { st with files := removeFile files1 path })
              | .ok _ =>
                let db1 := (dbAdd env.dbInsertOk st.db
                  ⟨name, ipv4, ipv6, pub, priv, psk, path, env.now, createdBy⟩).2
                (.ok client, { files := files1, doc := some doc1, db := db1 })
    | _, _ => (.error .exhausted, st)

/-! ## remove_client -/

/-- `remove_client`: `False` when the name is in neither store; otherwise
delete the client file if present, remove the peer section (raising when the
server configuration file does not exist), best-effort sync, delete the
registry row (result ignored), and report `True`. -/
def removeClient (env : Env) (sp : Params) (st : St) (name : Str) :
    Except Err Bool × St :=
  if !(clientExists sp st name || dbExists st.db name) then (.ok false, st)
  else
    let files1 := removeFile st.files (clientPath sp name)
    match st.doc with
    | none => (.error .runtime, { st with files := files1 })
    | some lines =>
      if !env.updateOk then (.error .runtime, { st with files := files1 })
      else
        let doc1 := updateServerConfigLines name none lines
        match syncSafe env.sync with
        | .error _ => (.error .runtime, { st with files := files1, doc := some doc1 })
        | .ok _ =>
          (.ok true, { files := files1, doc := some doc1, db := (dbRemove st.db name).2 })

/-! ## rename_client -/

/-- The `(success, message)` outcomes of `rename_client`, one constructor
per `return` site of the source. -/
inductive RenameRes
  | renamed        -- (True,  "... successfully renamed to ...")
  | sameName       -- (True,  "... is already named ...")
  | notFound       -- (False, "... not found in system ...")
  | dbConflict     -- (False, "... already exists in database")
  | configConflict -- (False, "... already exists in config")
  | oldDataMissing -- (False, "... not found in database" / "... data not found in database")
deriving DecidableEq, Repr

/-- The `try` block of `rename_client`: re-fetch the old record, write the
new client file, remove the old peer section and insert the new one, sync,
replace the registry row, delete the old client file.  On an exception the
newly written file is deleted and a wrapping `RuntimeError` is raised.
As in `addClient`, I/O failures are modelled as occurring before the first
document mutation.  Note the source passes `client_data[7]` (the
`created_at` column) as the `created_by` of the re-inserted row, and
ignores the insert's result. -/
def renameGo (env : Env) (sp : Params) (st : St) (oldName newName : Str) :
    Except Err RenameRes × St :=
  match dbGet st.db oldName with
  | none => (.ok .oldDataMissing, st)
  | some r =>
    if !env.writeOk then
      -- `new_config_file` was never bound, so the except-block deletes nothing
      (.error .runtime, st)
    else
      let newPath := clientPath sp newName
      let client : Client :=
        ⟨newName, r.ipv4, r.ipv6, r.publicKey, r.privateKey, r.presharedKey, newPath⟩
      let files1 := writeFile st.files newPath (renderClientConfig sp client)
      match st.doc with
      | none => (.error .runtime, { st with files := removeFile files1 newPath })
      | some lines =>
        if !env.updateOk then
          (.error .runtime, { st with files := removeFile files1 newPath })
        else
          let lines1 := updateServerConfigLines oldName none lines
          let lines2 := updateServerConfigLines newName (some (renderSection client)) lines1
          match syncSafe env.sync with
          | .error _ => (.error .runtime, { st with files := removeFile files1 newPath })
          | .ok _ =>
            let db1 := (dbRemove st.db oldName).2
            let db2 := (dbAdd env.dbInsertOk db1
              ⟨newName, r.ipv4, r.ipv6, r.publicKey, r.privateKey, r.presharedKey,
               newPath, env.now, r.createdAt⟩).2
            let files2 := removeFile files1 (clientPath sp oldName)
            (.ok .renamed, { files := files2, doc := some lines2, db := db2 })

/-- `rename_client`: validate both names, require the old name in at least
one store, reject when the new name has a registry row; when the new name is
only in the config document, allow the rename exactly when the public key
found in the document for the new name equals the old record's stored public
key (a same-name rename short-circuits as a no-op success). -/
def renameClient (env : Env) (sp : Params) (st : St) (oldName newName : Str) :
    Except Err RenameRes × St :=
  if !(validName oldName) then (.error .validation, st)
  else if !(validName newName) then (.error .validation, st)
  else if !(clientExists sp st oldName || dbExists st.db oldName) then
    (.ok .notFound, st)
  else if dbExists st.db newName then (.ok .dbConflict, st)
  else if clientExists sp st newName then
    if oldName = newName then (.ok .sameName, st)
    else
      match dbGet st.db oldName with
      | none => (.ok .oldDataMissing, st)
      | some r =>
        if getClientPubkeyFromConfig sp st newName = some r.publicKey then
          renameGo env sp st oldName newName
        else (.ok .configConflict, st)
  else renameGo env sp st oldName newName

/-! ## Registry reconciliation (startup sync) -/

/-- `_get_clients_from_config`: the names on lines starting with
`"### Client "`, with the sentinel removed (`line.replace`) and stripped. -/
def getClientsFromConfig (lines : List Str) : List Str :=
  (lines.filter (fun l => (str "### Client ").isPrefixOf l)).map
    (fun l => pyStrip (pyReplaceDrop (str "### Client ") l))

/-- Key/value regex search `key + r"\s*=\s*([^\s\n]+)"` attempted at the
start of `cs` (one position of `re.search`'s left-to-right scan). -/
def matchKV (key : Str) (cs : Str) : Option Str :=
  if key.isPrefixOf cs then
    match (cs.drop key.length).dropWhile pySpace with
    | '=' :: r2 =>
      if ((r2.dropWhile pySpace).takeWhile (fun c => !(pySpace c))).isEmpty then none
      else some ((r2.dropWhile pySpace).takeWhile (fun c => !(pySpace c)))
    | _ => none
  else none

/-- `re.search(key + r"\s*=\s*([^\s\n]+)", content)`: leftmost match. -/
def searchKV (key : Str) : Str → Option Str
  | [] => none
  | c :: rest =>
    match matchKV key (c :: rest) with
    | some v => some v
    | none => searchKV key rest

/-- The fields `_parse_client_config` may extract. -/
structure ParsedInfo where
  privateKey : Option Str
  publicKey : Option Str
  presharedKey : Option Str
  ipv4 : Option Str
  ipv6 : Option Str
deriving DecidableEq, Repr

/-- Classify one comma-separated token of the `Address = ...` line:
`addr.split("/")[0]` goes to the IPv4 slot when the token contains a dot,
to the IPv6 slot when it contains a colon. -/
def parseAddrToken (acc : Option Str × Option Str) (tok : Str) :
    Option Str × Option Str :=
  let a := pyStrip tok
  if a.contains '.' then (some (a.takeWhile (fun c => !(c == '/'))), acc.2)
  else if a.contains ':' then (acc.1, some (a.takeWhile (fun c => !(c == '/'))))
  else acc

/-- `_parse_client_config`: extract private key (deriving the public key via
`wg pubkey`, whose `CalledProcessError` is swallowed), preshared key and
addresses; return `none` when nothing was extracted.  A missing `wg` binary
(`FileNotFoundError`) inside the key branch is not caught there, so it
reaches the outer `except Exception` of the parser and the whole parse
returns `none`. -/
def parseClientConfig (env : Env) (content : Str) : Option ParsedInfo :=
  if env.wgMissing && (searchKV (str "PrivateKey") content).isSome then none
  else
    let priv := searchKV (str "PrivateKey") content
    let pub := priv.bind env.derivePub
    let psk := searchKV (str "PresharedKey") content
    let addr := match searchKV (str "Address") content with
      | none => (none, none)
      | some tok => (List.splitOn ',' tok).foldl parseAddrToken (none, none)
    if priv.isSome || pub.isSome || psk.isSome || addr.1.isSome || addr.2.isSome then
      some ⟨priv, pub, psk, addr.1, addr.2⟩
    else none

/-- `_add_missing_client_to_db`: when the client's own config file exists,
insert a row from the parsed fields (no insert at all when the parse yields
nothing); when the file does not exist, insert a minimal row with empty
fields.  Either insert carries `created_by = 0`. -/
def addMissingClientToDb (env : Env) (sp : Params) (st : St) (name : Str) : St :=
  match lookupFile st.files (clientPath sp name) with
  | some content =>
    match parseClientConfig env content with
    | some info =>
      { st with db := (dbAdd env.dbInsertOk st.db
          ⟨name, info.ipv4.getD [], info.ipv6.getD [], info.publicKey.getD [],
           info.privateKey.getD [], info.presharedKey.getD [],
           clientPath sp name, env.now, 0⟩).2 }
    | none => st
  | none =>
    { st with db := (dbAdd env.dbInsertOk st.db
        ⟨name, [], [], [], [], [], [], env.now, 0⟩).2 }

/-- `_sync_existing_clients` (the startup reconciliation): diff the names in
the config document against a snapshot of the registry names, then add each
missing client. -/
def syncExistingClients (env : Env) (sp : Params) (st : St) : St :=
  match st.doc with
  | none => st
  | some lines =>
    let configClients := getClientsFromConfig lines
    let dbNames := st.db.map (fun r => r.name)
    let missing := configClients.filter (fun n => !(dbNames.contains n))
    missing.foldl (fun s n => addMissingClientToDb env sp s n) st

/-! ## General lemmas about the embedding -/

/-- Index of the first blank line (`line.strip() == ""`) of a line list. -/
def firstBlankIdx : List Str → Option Nat
  | [] => none
  | l :: rest =>
    if (pyStrip l).isEmpty then some 0 else (firstBlankIdx rest).map (· + 1)

theorem findBoundsGo_append_none (sent : Str) (pre rest : List Str) (i : Nat)
    (h : ∀ l ∈ pre, containsSub sent l = false) :
    findBoundsGo sent i none (pre ++ rest) =
      findBoundsGo sent (i + pre.length) none rest := by
  induction pre generalizing i with
  | nil => simp
  | cons l t ih =>
    have hl := h l (by simp)
    simp only [List.cons_append, findBoundsGo, hl, Bool.false_eq_true, if_false,
      List.append_eq]
    rw [ih (i + 1) (fun m hm => h m (List.mem_cons_of_mem _ hm))]
    congr 1
    simp only [List.length_cons]
    omega

theorem findBoundsGo_some (sent : Str) (s : Nat) (rest : List Str)
    (h : ∀ l ∈ rest, containsSub sent l = false) (i : Nat) :
    findBoundsGo sent i (some s) rest =
      (some s, (firstBlankIdx rest).map (i + ·)) := by
  induction rest generalizing i with
  | nil => simp [findBoundsGo, firstBlankIdx]
  | cons l t ih =>
    have hl := h l (by simp)
    by_cases hb : (pyStrip l).isEmpty
    · simp [findBoundsGo, hl, hb, firstBlankIdx]
    · simp only [findBoundsGo, hl, Bool.false_eq_true, if_false, hb, firstBlankIdx]
      rw [ih (fun m hm => h m (List.mem_cons_of_mem _ hm)) (i + 1)]
      cases hfb : firstBlankIdx t <;> simp [hfb] <;> omega

/-- Where `_update_server_config` finds a section when the document is split
as `pre ++ [line] ++ post` with the sentinel occurring only in `line`: the
section starts at `line` and ends at the first blank line of `post` (shifted
to a document index); a following sentinel header line has no effect on the
end. -/
theorem findBounds_split (sent : Str) (pre : List Str) (line : Str) (post : List Str)
    (hpre : ∀ l ∈ pre, containsSub sent l = false)
    (hline : containsSub sent line = true)
    (hpost : ∀ l ∈ post, containsSub sent l = false) :
    findBounds sent (pre ++ line :: post) =
      (some pre.length, (firstBlankIdx post).map (pre.length + 1 + ·)) := by
  unfold findBounds
  rw [findBoundsGo_append_none sent pre (line :: post) 0 hpre]
  simp only [findBoundsGo, hline, if_true, Nat.zero_add]
  rw [findBoundsGo_some sent pre.length post hpost (pre.length + 1)]

theorem findBoundsGo_congr (sA sB : Str) (lines : List Str)
    (h : ∀ l ∈ lines, containsSub sA l = containsSub sB l)
    (i : Nat) (start : Option Nat) :
    findBoundsGo sA i start lines = findBoundsGo sB i start lines := by
  induction lines generalizing i start with
  | nil => rfl
  | cons l t ih =>
    have hl := h l (by simp)
    have ht : ∀ m ∈ t, containsSub sA m = containsSub sB m :=
      fun m hm => h m (List.mem_cons_of_mem _ hm)
    by_cases hc : containsSub sB l = true
    · simp only [findBoundsGo, hl, hc, if_true]
      exact ih ht (i + 1) (some i)
    · simp only [findBoundsGo, hl, eq_false_intro hc, Bool.false_eq_true, if_false]
      cases start with
      | none => exact ih ht (i + 1) none
      | some s =>
        by_cases hb : (pyStrip l).isEmpty
        · simp [hb]
        · simp only [hb, Bool.false_eq_true, if_false]
          exact ih ht (i + 1) (some s)

theorem mem_renderDoc_of_mem {l : Str} {lines : List Str} (h : l ∈ lines) :
    l <:+: renderDoc lines := by
  induction lines with
  | nil => cases h
  | cons x t ih =>
    rcases List.mem_cons.mp h with h1 | h2
    · subst h1
      exact List.IsPrefix.isInfix ⟨'\n' :: renderDoc t, rfl⟩
    · exact List.IsInfix.trans (ih h2) ⟨x ++ [ '\n' ], [], by simp [renderDoc]⟩

theorem lookupFile_cons (e : Str × Str) (t : List (Str × Str)) (q : Str) :
    lookupFile (e :: t) q = if e.1 = q then some e.2 else lookupFile t q := by
  by_cases h : e.1 = q <;> simp [lookupFile, List.find?_cons, h]

theorem removeFile_cons (e : Str × Str) (t : List (Str × Str)) (p : Str) :
    removeFile (e :: t) p = if e.1 = p then removeFile t p else e :: removeFile t p := by
  by_cases h : e.1 = p <;> simp [removeFile, List.filter_cons, h]

theorem lookupFile_removeFile_self (fs : List (Str × Str)) (p : Str) :
    lookupFile (removeFile fs p) p = none := by
  induction fs with
  | nil => rfl
  | cons e t ih =>
    rw [removeFile_cons]
    by_cases h : e.1 = p
    · rw [if_pos h]; exact ih
    · rw [if_neg h, lookupFile_cons, if_neg h]; exact ih

theorem lookupFile_removeFile_ne (fs : List (Str × Str)) (p q : Str) (h : q ≠ p) :
    lookupFile (removeFile fs p) q = lookupFile fs q := by
  induction fs with
  | nil => rfl
  | cons e t ih =>
    by_cases h1 : e.1 = p
    · have h2 : ¬ e.1 = q := by rw [h1]; exact fun hq => h hq.symm
      rw [removeFile_cons, if_pos h1, lookupFile_cons, if_neg h2]
      exact ih
    · rw [removeFile_cons, if_neg h1, lookupFile_cons, lookupFile_cons]
      by_cases h2 : e.1 = q
      · rw [if_pos h2, if_pos h2]
      · rw [if_neg h2, if_neg h2]; exact ih

theorem removeFile_writeFile (fs : List (Str × Str)) (p c : Str) :
    removeFile (writeFile fs p c) p = removeFile fs p := by
  simp [removeFile, writeFile, List.filter_filter]

theorem dbExists_iff (db : List Rec) (name : Str) :
    dbExists db name = true ↔ ∃ r ∈ db, r.name = name := by
  simp [dbExists, List.any_eq_true, beq_iff_eq]

theorem dbGet_mem {db : List Rec} {name : Str} {r : Rec}
    (h : dbGet db name = some r) : r ∈ db ∧ r.name = name := by
  have h1 := List.mem_of_find?_eq_some h
  have h2 := List.find?_some h
  exact ⟨h1, by simpa [beq_iff_eq] using h2⟩

theorem dbExists_of_dbGet {db : List Rec} {name : Str} {r : Rec}
    (h : dbGet db name = some r) : dbExists db name = true := by
  obtain ⟨h1, h2⟩ := dbGet_mem h
  exact (dbExists_iff db name).mpr ⟨r, h1, h2⟩

theorem clientExists_doc {sp : Params} {st : St} {name : Str}
    (h : clientExists sp st name = true) : ∃ lines, st.doc = some lines := by
  unfold clientExists at h
  cases hdoc : st.doc with
  | none => rw [hdoc] at h; cases h
  | some lines => exact ⟨lines, rfl⟩

theorem syncSafe_eq_ok (o : SyncOutcome) : syncSafe o = .ok () := by
  cases o <;> rfl

theorem findFreeFrom_some (used : List Nat) :
    ∀ (fuel i j : Nat), findFreeFrom used i fuel = some j →
      i ≤ j ∧ j < i + fuel ∧ used.contains j = false ∧
      ∀ k, i ≤ k → k < j → used.contains k = true := by
  intro fuel
  induction fuel with
  | zero => intro i j h; cases h
  | succ f ih =>
    intro i j h
    unfold findFreeFrom at h
    by_cases hc : used.contains i = true
    · rw [if_pos hc] at h
      obtain ⟨h1, h2, h3, h4⟩ := ih (i + 1) j h
      refine ⟨by omega, by omega, h3, ?_⟩
      intro k hk1 hk2
      rcases Nat.eq_or_lt_of_le hk1 with he | hl
      · rwa [he] at hc
      · exact h4 k (by omega) hk2
    · rw [if_neg hc] at h
      injection h with h
      subst h
      refine ⟨le_refl _, by omega, by simpa using hc, ?_⟩
      intro k hk1 hk2
      exact absurd (lt_of_le_of_lt hk1 hk2) (lt_irrefl _)

theorem findFreeFrom_none (used : List Nat) :
    ∀ (fuel i : Nat), findFreeFrom used i fuel = none ↔
      ∀ k, i ≤ k → k < i + fuel → used.contains k = true := by
  intro fuel
  induction fuel with
  | zero =>
    intro i
    exact ⟨fun _ k h1 h2 => absurd h2 (by omega), fun _ => rfl⟩
  | succ f ih =>
    intro i
    unfold findFreeFrom
    by_cases hc : used.contains i = true
    · rw [if_pos hc, ih (i + 1)]
      constructor
      · intro hr k hk1 hk2
        rcases Nat.eq_or_lt_of_le hk1 with he | hl
        · rwa [← he]
        · exact hr k hl (by omega)
      · intro hr k hk1 hk2
        exact hr k (by omega) (by omega)
    · rw [if_neg hc]
      constructor
      · intro h; cases h
      · intro hr
        exact absurd (hr i (le_refl i) (by omega)) hc

/-! ## Claim C2: peer-section boundaries -/

/-- Per-claim boundary predicate: a line ends the section when it is blank
or is itself a sentinel header line (the claim's "whichever comes first"
reading). -/
def firstBoundaryIdxPerClaim : List Str → Option Nat
  | [] => none
  | l :: rest =>
    if (pyStrip l).isEmpty || (str "### Client ").isPrefixOf l then some 0
    else (firstBoundaryIdxPerClaim rest).map (· + 1)

/-- Section end position as the claim words it, for a section starting at
index `s`. -/
def sectionEndPerClaim (lines : List Str) (s : Nat) : Option Nat :=
  (firstBoundaryIdxPerClaim (lines.drop (s + 1))).map (s + 1 + ·)

/-- A document in which a second client's sentinel header follows the first
client's section with no intervening blank line. -/
def docTwoHeaders : List Str :=
  [str "### Client a", str "PublicKey = A", str "### Client b",
   str "PublicKey = B", str ""]

/-- Claim C2 is false as stated: with a second sentinel header before the
next blank line, the code's section for client `a` runs to the blank line at
index 4 (so removal deletes client `b`'s entire section as well), while the
claim's "next blank line or next sentinel header, whichever comes first"
would end it at index 2. -/
theorem c2_counterexample :
    (findBounds (sentinel (str "a")) docTwoHeaders).1 = some 0 ∧
    (findBounds (sentinel (str "a")) docTwoHeaders).2 = some 4 ∧
    sectionEndPerClaim docTwoHeaders 0 = some 2 ∧
    updateServerConfigLines (str "a") none docTwoHeaders = [] := by decide

/-- Claim C2 (amended): the peer section operated on starts at the line
containing the sentinel header and ends at the first subsequent blank line —
a subsequent sentinel header line does not terminate it — and with no
subsequent blank line it extends to the end of the document; removal
deletes exactly this range (header through blank line inclusive, or through
end-of-document). -/
theorem c2_section_extent (name : Str) (pre : List Str) (line : Str) (post : List Str)
    (hpre : ∀ l ∈ pre, containsSub (sentinel name) l = false)
    (hline : containsSub (sentinel name) line = true)
    (hpost : ∀ l ∈ post, containsSub (sentinel name) l = false) :
    findBounds (sentinel name) (pre ++ line :: post) =
      (some pre.length, (firstBlankIdx post).map (pre.length + 1 + ·)) ∧
    updateServerConfigLines name none (pre ++ line :: post) =
      (match firstBlankIdx post with
       | some j => pre ++ post.drop (j + 1)
       | none => pre) := by
  have hb := findBounds_split (sentinel name) pre line post hpre hline hpost
  refine ⟨hb, ?_⟩
  unfold updateServerConfigLines
  rw [hb]
  cases hfb : firstBlankIdx post with
  | none =>
    simpa using List.take_left pre (line :: post)
  | some j =>
    simp only [Option.map_some']
    rw [ List.take_left]
    congr 1
    have he : pre.length + 1 + j + 1 = pre.length + (j + 2) := by omega
    rw [he, List.drop_append]
    rfl

theorem c2_section_extent_witness :
    findBounds (sentinel (str "a"))
        ([str "x"] ++ (str "### Client a") :: [str "k", str "", str "z"]) =
      (some 1, (firstBlankIdx [str "k", str "", str "z"]).map (1 + 1 + ·)) ∧
    updateServerConfigLines (str "a") none
        ([str "x"] ++ (str "### Client a") :: [str "k", str "", str "z"]) =
      (match firstBlankIdx [str "k", str "", str "z"] with
       | some j => [str "x"] ++ ([str "k", str "", str "z"]).drop (j + 1)
       | none => [str "x"]) :=
  c2_section_extent (str "a") [str "x"] (str "### Client a")
    [str "k", str "", str "z"] (by decide) (by decide) (by decide)

/-! ## Claim C3: IPv4 allocator -/

/-- Minimal server parameters used in allocator counterexamples. -/
def spAlloc : Params :=
  { nic := str "wg0", serverIp4 := str "10.66.66.1", serverIp6 := str "fd42:42:42::1",
    pubIp := [], port := [], pubKey := [], dns1 := [], dns2 := [], allowedIps := [] }

/-- A document whose only address mention is `10.66.66.23`. -/
def docIdx23 : List Str := [str "AllowedIPs = 10.66.66.23/32"]

/-- Claim C3 is false under its literal reading: in a document containing
only `10.66.66.23`, the string `"10.66.66.2"` (base followed by index 2)
does occur as a substring, yet the allocator still returns `10.66.66.2` —
used indices are collected as maximal digit runs after the base, not as
substring occurrences of `<base>.i`. -/
theorem c3_counterexample :
    getAvailableIPv4 spAlloc (some docIdx23) = some (str "10.66.66.2") ∧
    containsSub (baseIp4 spAlloc.serverIp4 ++ '.' :: natStr 2) (renderDoc docIdx23) =
      true := by decide

/-- Claim C3 (amended): the allocator collects as used the integer values of
the maximal digit runs that follow occurrences of `<base>.` in the document
text (scanned left to right without overlap, as `re.finditer` does), and
returns the address with the smallest index in `[2, 254]` outside that
collection; it returns no address exactly when every index in `[2, 254]` is
collected, and in that case (with a valid, non-existing name) `add_client`
reports the exhaustion error and leaves the state unchanged. -/
theorem c3_ipv4_allocator (sp : Params) (lines : List Str) (env : Env) (st : St)
    (name : Str) (cby : Nat) :
    (∀ a, getAvailableIPv4 sp (some lines) = some a →
       ∃ i, a = baseIp4 sp.serverIp4 ++ '.' :: natStr i ∧ 2 ≤ i ∧ i ≤ 254 ∧
         (scanUsed (baseIp4 sp.serverIp4 ++ [ '.' ]) (renderDoc lines)).contains i
           = false ∧
         ∀ j, 2 ≤ j → j < i →
           (scanUsed (baseIp4 sp.serverIp4 ++ [ '.' ]) (renderDoc lines)).contains j
             = true) ∧
    (getAvailableIPv4 sp (some lines) = none ↔
       ∀ i, 2 ≤ i → i ≤ 254 →
         (scanUsed (baseIp4 sp.serverIp4 ++ [ '.' ]) (renderDoc lines)).contains i
           = true) ∧
    (st.doc = some lines → getAvailableIPv4 sp (some lines) = none →
       validName name = true → clientExists sp st name = false →
       dbExists st.db name = false →
       addClient env sp st name cby = (.error .exhausted, st)) := by
  refine ⟨?_, ?_, ?_⟩
  · intro a ha
    unfold getAvailableIPv4 at ha
    simp only [Option.map_eq_some'] at ha
    obtain ⟨i, hi, hai⟩ := ha
    obtain ⟨h1, h2, h3, h4⟩ := findFreeFrom_some _ 253 2 i hi
    exact ⟨i, hai.symm, h1, by omega, h3, h4⟩
  · unfold getAvailableIPv4
    simp only [Option.map_eq_none']
    rw [findFreeFrom_none _ 253 2]
    constructor
    · intro hr i h1 h2; exact hr i h1 (by omega)
    · intro hr i h1 h2; exact hr i h1 (by omega)
  · intro hdoc hnone hv hce hde
    cases h6 : getAvailableIPv6 sp (some lines) <;>
      simp [addClient, hv, hce, hde, hdoc, hnone, h6]

theorem c3_ipv4_allocator_witness :
    ∃ i, str "10.66.66.4" = baseIp4 spAlloc.serverIp4 ++ '.' :: natStr i ∧
      2 ≤ i ∧ i ≤ 254 ∧
      (scanUsed (baseIp4 spAlloc.serverIp4 ++ [ '.' ])
        (renderDoc [str "x 10.66.66.2 10.66.66.3"])).contains i = false ∧
      ∀ j, 2 ≤ j → j < i →
        (scanUsed (baseIp4 spAlloc.serverIp4 ++ [ '.' ])
          (renderDoc [str "x 10.66.66.2 10.66.66.3"])).contains j = true :=
  (c3_ipv4_allocator spAlloc [str "x 10.66.66.2 10.66.66.3"]
    ⟨none, false, false, .ok, false, fun _ => none, false, 0⟩
    ⟨[], none, []⟩ (str "x") 0).1 (str "10.66.66.4") (by decide)

/-! ## Further lemmas about add_client -/

theorem lookupFile_writeFile_self (fs : List (Str × Str)) (p c : Str) :
    lookupFile (writeFile fs p c) p = some c := by
  simp [lookupFile, writeFile, List.find?_cons]

/-- With a valid name, no later step of `add_client` can produce the
validation error. -/
theorem addClient_not_validation (env : Env) (sp : Params) (st : St)
    (name : Str) (cby : Nat) (hv : validName name = true) :
    (addClient env sp st name cby).1 ≠ .error .validation := by
  by_cases hcd : (clientExists sp st name || dbExists st.db name) = true
  · simp [addClient, hv, hcd]
  · have hcd' : (clientExists sp st name || dbExists st.db name) = false := by
      simpa using hcd
    cases h4 : getAvailableIPv4 sp st.doc with
    | none => cases h6 : getAvailableIPv6 sp st.doc <;> simp [addClient, hv, hcd', h4, h6]
    | some a4 =>
      cases h6 : getAvailableIPv6 sp st.doc with
      | none => simp [addClient, hv, hcd', h4, h6]
      | some a6 =>
        cases hk : env.keygen with
        | none => simp [addClient, hv, hcd', h4, h6, hk]
        | some tr =>
          obtain ⟨priv, pub, psk⟩ := tr
          by_cases hwk : env.writeOk = true
          · cases hdoc : st.doc with
            | none => rw [hdoc] at h4; simp [getAvailableIPv4] at h4
            | some lines =>
              rw [hdoc] at h4 h6
              by_cases hu : env.updateOk = true
              · simp [addClient, hv, hcd', h4, h6, hk, hwk, hdoc, hu, syncSafe_eq_ok]
              · have hu' : env.updateOk = false := by simpa using hu
                simp [addClient, hv, hcd', h4, h6, hk, hwk, hdoc, hu']
          · have hwk' : env.writeOk = false := by simpa using hwk
            simp [addClient, hv, hcd', h4, h6, hk, hwk']

/-- When the client file write succeeded and `add_client` nevertheless ends
in the wrapping `RuntimeError`, the final state is the initial state with
the client's file path removed. -/
theorem addClient_runtime_state (env : Env) (sp : Params) (st : St)
    (name : Str) (cby : Nat) (hw : env.writeOk = true)
    (herr : (addClient env sp st name cby).1 = .error .runtime) :
    (addClient env sp st name cby).2 =
      { st with files := removeFile st.files (clientPath sp name) } := by
  by_cases hv : validName name = true
  · by_cases hcd : (clientExists sp st name || dbExists st.db name) = true
    · simp [addClient, hv, hcd] at herr
    · have hcd' : (clientExists sp st name || dbExists st.db name) = false := by
        simpa using hcd
      cases h4 : getAvailableIPv4 sp st.doc with
      | none =>
        cases h6 : getAvailableIPv6 sp st.doc <;>
          simp [addClient, hv, hcd', h4, h6] at herr
      | some a4 =>
        cases h6 : getAvailableIPv6 sp st.doc with
        | none => simp [addClient, hv, hcd', h4, h6] at herr
        | some a6 =>
          cases hk : env.keygen with
          | none => simp [addClient, hv, hcd', h4, h6, hk] at herr
          | some tr =>
            obtain ⟨priv, pub, psk⟩ := tr
            cases hdoc : st.doc with
            | none => rw [hdoc] at h4; simp [getAvailableIPv4] at h4
            | some lines =>
              rw [hdoc] at h4 h6
              by_cases hu : env.updateOk = true
              · simp [addClient, hv, hcd', h4, h6, hk, hw, hdoc, hu,
                  syncSafe_eq_ok] at herr
              · have hu' : env.updateOk = false := by simpa using hu
                simp only [addClient, hv, hcd', h4, h6, hk, hw, hdoc, hu']
                simp [removeFile_writeFile]
  · have hv' : validName name = false := by simpa using hv
    simp [addClient, hv'] at herr

/-! ## Claim C4: exhaustion leaves every store unchanged -/

/-- Claim C4: with a valid, non-existing name, if either allocator finds no
free address, `add_client` reports the exhaustion error and no store is
touched: no client file, no peer section, no registry row. -/
theorem c4_exhaustion_no_mutation (env : Env) (sp : Params) (st : St)
    (name : Str) (cby : Nat)
    (hv : validName name = true)
    (hce : clientExists sp st name = false)
    (hde : dbExists st.db name = false)
    (h : getAvailableIPv4 sp st.doc = none ∨ getAvailableIPv6 sp st.doc = none) :
    addClient env sp st name cby = (.error .exhausted, st) ∧
    (addClient env sp st name cby).2.files = st.files ∧
    (addClient env sp st name cby).2.doc = st.doc ∧
    (addClient env sp st name cby).2.db = st.db := by
  have hmain : addClient env sp st name cby = (.error .exhausted, st) := by
    rcases h with h4 | h6
    · cases hx : getAvailableIPv6 sp st.doc <;>
        simp [addClient, hv, hce, hde, h4, hx]
    · cases hx : getAvailableIPv4 sp st.doc <;>
        simp [addClient, hv, hce, hde, h6, hx]
  exact ⟨hmain, by rw [hmain], by rw [hmain], by rw [hmain]⟩

theorem c4_exhaustion_no_mutation_witness :
    addClient ⟨none, false, false, .ok, false, fun _ => none, false, 0⟩
        spAlloc ⟨[], none, []⟩ (str "carol") 0 =
      (.error .exhausted, ⟨[], none, []⟩) ∧
    (addClient ⟨none, false, false, .ok, false, fun _ => none, false, 0⟩
        spAlloc ⟨[], none, []⟩ (str "carol") 0).2.files = [] ∧
    (addClient ⟨none, false, false, .ok, false, fun _ => none, false, 0⟩
        spAlloc ⟨[], none, []⟩ (str "carol") 0).2.doc = none ∧
    (addClient ⟨none, false, false, .ok, false, fun _ => none, false, 0⟩
        spAlloc ⟨[], none, []⟩ (str "carol") 0).2.db = [] :=
  c4_exhaustion_no_mutation ⟨none, false, false, .ok, false, fun _ => none, false, 0⟩
    spAlloc ⟨[], none, []⟩ (str "carol") 0 (by decide) (by decide) (by decide)
    (Or.inl (by decide))

/-! ## Claim C5: rollback deletes the written file before surfacing -/

/-- Claim C5: if any step after the client file write fails (surfacing the
wrapping `RuntimeError`), the just-written file is deleted before the error
reaches the caller — the final state is the initial state minus that path,
so the document and registry are untouched and every other file is intact. -/
theorem c5_rollback_on_failure (env : Env) (sp : Params) (st : St)
    (name : Str) (cby : Nat)
    (hw : env.writeOk = true)
    (herr : (addClient env sp st name cby).1 = .error .runtime) :
    (addClient env sp st name cby).2 =
      { st with files := removeFile st.files (clientPath sp name) } ∧
    lookupFile (addClient env sp st name cby).2.files (clientPath sp name) = none ∧
    ∀ p, p ≠ clientPath sp name →
      lookupFile (addClient env sp st name cby).2.files p = lookupFile st.files p := by
  have hst := addClient_runtime_state env sp st name cby hw herr
  refine ⟨hst, ?_, ?_⟩
  · rw [hst]
    exact lookupFile_removeFile_self st.files (clientPath sp name)
  · intro p hp
    rw [hst]
    exact lookupFile_removeFile_ne st.files (clientPath sp name) p hp

/-- Environment in which the server-config rewrite fails after a successful
client-file write. -/
def envUpdateFail : Env :=
  ⟨some (str "PRIV", str "PUB", str "PSK"), true, false, .ok, true,
   fun _ => none, false, 0⟩

theorem c5_rollback_on_failure_witness :
    (addClient envUpdateFail spAlloc ⟨[], some [], []⟩ (str "carol") 0).2 =
      { files := removeFile ([] : List (Str × Str)) (clientPath spAlloc (str "carol")),
        doc := some [], db := [] } ∧
    lookupFile (addClient envUpdateFail spAlloc ⟨[], some [], []⟩ (str "carol") 0).2.files
      (clientPath spAlloc (str "carol")) = none ∧
    ∀ p, p ≠ clientPath spAlloc (str "carol") →
      lookupFile (addClient envUpdateFail spAlloc ⟨[], some [], []⟩ (str "carol") 0).2.files p =
        lookupFile ([] : List (Str × Str)) p :=
  c5_rollback_on_failure envUpdateFail spAlloc ⟨[], some [], []⟩ (str "carol") 0
    (by decide) (by decide)

/-! ## Claim C6: sync failures are swallowed and change nothing -/

/-- Claim C6: the sync adapter never reports a failure, and the result of
`add_client`, `remove_client` and `rename_client` is identical whatever the
sync tool outcome was. -/
theorem c6_sync_failures_harmless (o o' : SyncOutcome) (env : Env) (sp : Params)
    (st : St) (name oldName newName : Str) (cby : Nat) :
    syncSafe o = .ok () ∧
    addClient { env with sync := o } sp st name cby =
      addClient { env with sync := o' } sp st name cby ∧
    removeClient { env with sync := o } sp st name =
      removeClient { env with sync := o' } sp st name ∧
    renameClient { env with sync := o } sp st oldName newName =
      renameClient { env with sync := o' } sp st oldName newName := by
  refine ⟨syncSafe_eq_ok o, ?_, ?_, ?_⟩
  · simp [addClient, syncSafe_eq_ok]
  · simp [removeClient, syncSafe_eq_ok]
  · simp [renameClient, renameGo, syncSafe_eq_ok]

/-! ## Claim C8: name validation boundary -/

theorem isEmpty_false_iff {α : Type} (l : List α) : l.isEmpty = false ↔ l ≠ [] := by
  cases l <;> simp

theorem validName_iff (name : Str) :
    validName name = true ↔
      ((name ≠ [] ∧ name.all isNameChar = true ∧ name.length ≤ 15) ∨
       (name.getLast? = some '\n' ∧ name.dropLast ≠ [] ∧
        name.dropLast.all isNameChar = true ∧ name.length ≤ 15)) := by
  unfold validName reFullNameMatch
  simp only [Bool.and_eq_true, Bool.or_eq_true, Bool.not_eq_true',
    isEmpty_false_iff, beq_iff_eq, decide_eq_true_eq]
  constructor
  · rintro ⟨h1 | h2, hlen⟩
    · exact Or.inl ⟨h1.1, h1.2, hlen⟩
    · exact Or.inr ⟨h2.1.1, h2.1.2, h2.2, hlen⟩
  · rintro (⟨h1, h2, h3⟩ | ⟨h1, h2, h3, h4⟩)
    · exact ⟨Or.inl ⟨h1, h2⟩, h3⟩
    · exact ⟨Or.inr ⟨⟨h1, h2⟩, h3⟩, h4⟩

/-- Claim C8 is false as stated: the name `"a\n"` does not consist of
characters of the class `[A-Za-z0-9_-]`, yet `add_client` does not raise the
validation error for it (Python's `$` matches before a trailing newline). -/
theorem c8_counterexample :
    validName (str "a\n") = true ∧
    (str "a\n").all isNameChar = false ∧
    (addClient ⟨none, false, false, .ok, false, fun _ => none, false, 0⟩
      spAlloc ⟨[], none, []⟩ (str "a\n") 0).1 ≠ .error .validation := by decide

/-- Claim C8 (amended): `add_client` raises the validation error exactly for
the names outside the language accepted by Python's
`re.match(r"^[a-zA-Z0-9_-]+$", name)` with `len(name) <= 15`: between 1 and
15 characters of the class, or between 1 and 14 characters of the class
followed by one final newline; on a validation error no store is touched. -/
theorem c8_validation_boundary (env : Env) (sp : Params) (st : St)
    (name : Str) (cby : Nat) :
    ((addClient env sp st name cby).1 = .error .validation ↔
       ¬ ((name ≠ [] ∧ name.all isNameChar = true ∧ name.length ≤ 15) ∨
          (name.getLast? = some '\n' ∧ name.dropLast ≠ [] ∧
           name.dropLast.all isNameChar = true ∧ name.length ≤ 15))) ∧
    ((addClient env sp st name cby).1 = .error .validation →
       (addClient env sp st name cby).2 = st) := by
  have hiff : (addClient env sp st name cby).1 = .error .validation ↔
      validName name = false := by
    constructor
    · intro herr
      by_cases hv : validName name = true
      · exact absurd herr (addClient_not_validation env sp st name cby hv)
      · simpa using hv
    · intro hv
      simp [addClient, hv]
  constructor
  · rw [hiff, ← validName_iff]
    constructor
    · intro h hc; rw [h] at hc; cases hc
    · intro h
      cases hv : validName name with
      | false => rfl
      | true => exact absurd hv h
  · intro herr
    have hv := hiff.mp herr
    simp [addClient, hv]

theorem c8_validation_boundary_witness :
    ((addClient ⟨none, false, false, .ok, false, fun _ => none, false, 0⟩
        spAlloc ⟨[], none, []⟩ (str "ab@") 0).1 = .error .validation ↔
       ¬ ((str "ab@" ≠ [] ∧ (str "ab@").all isNameChar = true ∧ (str "ab@").length ≤ 15) ∨
          ((str "ab@").getLast? = some '\n' ∧ (str "ab@").dropLast ≠ [] ∧
           (str "ab@").dropLast.all isNameChar = true ∧ (str "ab@").length ≤ 15))) ∧
    ((addClient ⟨none, false, false, .ok, false, fun _ => none, false, 0⟩
        spAlloc ⟨[], none, []⟩ (str "ab@") 0).1 = .error .validation →
       (addClient ⟨none, false, false, .ok, false, fun _ => none, false, 0⟩
        spAlloc ⟨[], none, []⟩ (str "ab@") 0).2 = ⟨[], none, []⟩) :=
  c8_validation_boundary ⟨none, false, false, .ok, false, fun _ => none, false, 0⟩
    spAlloc ⟨[], none, []⟩ (str "ab@") 0

/-! ## Claim C10: registry-insert failure is not rolled back -/

/-- Environment in which everything succeeds except the SQLite insert. -/
def envDbFail : Env :=
  ⟨some (str "PRIV", str "PUB", str "PSK"), true, true, .ok, false,
   fun _ => none, false, 0⟩

/-- Claim C10: when the final registry insert of `add_client` fails, the
call still returns the new client as a success, the written client file and
the new peer section stay in place, and no registry row exists — the
failure is only logged. -/
theorem c10_db_insert_failure (env : Env) (sp : Params) (st : St)
    (name : Str) (cby : Nat) (lines : List Str) (ipv4 ipv6 priv pub psk : Str)
    (hv : validName name = true)
    (hcd : (clientExists sp st name || dbExists st.db name) = false)
    (hdoc : st.doc = some lines)
    (h4 : getAvailableIPv4 sp st.doc = some ipv4)
    (h6 : getAvailableIPv6 sp st.doc = some ipv6)
    (hk : env.keygen = some (priv, pub, psk))
    (hw : env.writeOk = true)
    (hu : env.updateOk = true)
    (hdb : env.dbInsertOk = false) :
    addClient env sp st name cby =
      (.ok ⟨name, ipv4, ipv6, pub, priv, psk, clientPath sp name⟩,
       { files := writeFile st.files (clientPath sp name)
           (renderClientConfig sp ⟨name, ipv4, ipv6, pub, priv, psk, clientPath sp name⟩),
         doc := some (updateServerConfigLines name
           (some (renderSection ⟨name, ipv4, ipv6, pub, priv, psk, clientPath sp name⟩))
           lines),
         db := st.db }) ∧
    lookupFile (addClient env sp st name cby).2.files (clientPath sp name) =
      some (renderClientConfig sp ⟨name, ipv4, ipv6, pub, priv, psk, clientPath sp name⟩) := by
  have hmain : addClient env sp st name cby =
      (.ok ⟨name, ipv4, ipv6, pub, priv, psk, clientPath sp name⟩,
       { files := writeFile st.files (clientPath sp name)
           (renderClientConfig sp ⟨name, ipv4, ipv6, pub, priv, psk, clientPath sp name⟩),
         doc := some (updateServerConfigLines name
           (some (renderSection ⟨name, ipv4, ipv6, pub, priv, psk, clientPath sp name⟩))
           lines),
         db := st.db }) := by
    rw [hdoc] at h4 h6
    simp [addClient, hv, hcd, hdoc, h4, h6, hk, hw, hu, hdb, syncSafe_eq_ok, dbAdd]
  refine ⟨hmain, ?_⟩
  rw [hmain]
  exact lookupFile_writeFile_self st.files (clientPath sp name) _

theorem c10_db_insert_failure_witness :
    (addClient envDbFail spAlloc ⟨[], some [], []⟩ (str "carol") 0).1 =
      .ok ⟨str "carol", str "10.66.66.2", str "fd42:42:42::2", str "PUB",
           str "PRIV", str "PSK", clientPath spAlloc (str "carol")⟩ ∧
    (addClient envDbFail spAlloc ⟨[], some [], []⟩ (str "carol") 0).2.db = [] := by
  have h := c10_db_insert_failure envDbFail spAlloc ⟨[], some [], []⟩ (str "carol") 0
    [] (str "10.66.66.2") (str "fd42:42:42::2") (str "PRIV") (str "PUB") (str "PSK")
    (by decide) (by decide) rfl (by decide) (by decide) rfl rfl rfl rfl
  rw [h.1]
  exact ⟨rfl, rfl⟩

/-! ## Claim C1: rename conflict policy -/

/-- Claim C1: for valid distinct names where the old client has a registry
record: a registry row under the new name is always rejected as a conflict;
a new name present only in the config document is compared by public key
against the old record — equal keys let the rename proceed (and with benign
I/O it completes successfully), different keys are rejected as a config
conflict. -/
theorem c1_rename_conflict_policy (env : Env) (sp : Params) (st : St)
    (oldName newName : Str) (r : Rec)
    (hvo : validName oldName = true) (hvn : validName newName = true)
    (hne : oldName ≠ newName)
    (hold : dbGet st.db oldName = some r) :
    (dbExists st.db newName = true →
       renameClient env sp st oldName newName = (.ok .dbConflict, st)) ∧
    (dbExists st.db newName = false → clientExists sp st newName = true →
       getClientPubkeyFromConfig sp st newName = some r.publicKey →
       renameClient env sp st oldName newName = renameGo env sp st oldName newName ∧
       (env.writeOk = true → env.updateOk = true →
          (renameClient env sp st oldName newName).1 = .ok .renamed)) ∧
    (dbExists st.db newName = false → clientExists sp st newName = true →
       getClientPubkeyFromConfig sp st newName ≠ some r.publicKey →
       renameClient env sp st oldName newName = (.ok .configConflict, st)) := by
  have holdEx : dbExists st.db oldName = true := dbExists_of_dbGet hold
  have hfound : (clientExists sp st oldName || dbExists st.db oldName) = true := by
    simp [holdEx]
  refine ⟨?_, ?_, ?_⟩
  · intro hnewdb
    simp [renameClient, hvo, hvn, hfound, hnewdb]
  · intro hnewdb hnewcfg hkey
    have hgo : renameClient env sp st oldName newName =
        renameGo env sp st oldName newName := by
      simp [renameClient, hvo, hvn, hfound, hnewdb, hnewcfg, hne, hold, hkey]
    refine ⟨hgo, ?_⟩
    intro hwk hu
    obtain ⟨lines, hlines⟩ := clientExists_doc hnewcfg
    rw [hgo]
    simp [renameGo, hold, hwk, hlines, hu, syncSafe_eq_ok]
  · intro hnewdb hnewcfg hkey
    simp [renameClient, hvo, hvn, hfound, hnewdb, hnewcfg, hne, hold, hkey]

/-- An existing registry row for the rename fixtures. -/
def recAlice : Rec :=
  ⟨str "alice", str "10.66.66.2", str "fd42:42:42::2", str "PUB", str "PRIV",
   str "PSK", str "old.conf", 5, 1⟩

/-- State with a "bob" peer section (same public key as the registry row of
"alice") left in the config document by a previous interrupted rename. -/
def stRename : St :=
  ⟨[], some [str "### Client bob", str "PublicKey = PUB"], [recAlice]⟩

theorem c1_rename_conflict_policy_witness :
    renameClient envDbFail spAlloc stRename (str "alice") (str "bob") =
      renameGo envDbFail spAlloc stRename (str "alice") (str "bob") ∧
    (renameClient envDbFail spAlloc stRename (str "alice") (str "bob")).1 =
      .ok .renamed := by
  have h := (c1_rename_conflict_policy envDbFail spAlloc stRename
    (str "alice") (str "bob") recAlice (by decide) (by decide) (by decide)
    (by decide)).2.1 (by decide) (by decide) (by decide)
  exact ⟨h.1, h.2 rfl rfl⟩

/-! ## Claim C9: substring matching of sentinel headers -/

theorem containsSub_sentinel_mono {m l : Str}
    (h : containsSub (sentinel m) l = true) :
    containsSub (str "### Client ") l = true := by
  rw [containsSub_iff] at h ⊢
  exact List.IsInfix.trans ( List.IsPrefix.isInfix ⟨m, rfl⟩) h

/-- Claim C9: when `"### Client " ++ n1` is a prefix of `"### Client " ++ n2`
(for example `n1 = "bob"`, `n2 = "bobby"`) and only `n2` has a peer section,
the substring-based checks treat `n1` as present: `client_exists` reports it,
`add_client` rejects it as a conflict, and the section scan used by
removal locates `n2`'s section for `n1`, so removing `n1` edits the document
exactly as removing `n2` would. -/
theorem c9_substring_name_matching (env : Env) (sp : Params) (st : St)
    (n1 n2 : Str) (cby : Nat) (pre : List Str) (hdr : Str) (post : List Str)
    (hp : n1 <+: n2)
    (hv : validName n1 = true)
    (hdoc : st.doc = some (pre ++ hdr :: post))
    (hhdr : containsSub (sentinel n2) hdr = true)
    (hpre : ∀ l ∈ pre, containsSub (str "### Client ") l = false)
    (hpost : ∀ l ∈ post, containsSub (str "### Client ") l = false) :
    clientExists sp st n1 = true ∧
    (addClient env sp st n1 cby).1 = .error .conflict ∧
    (findBounds (sentinel n1) (pre ++ hdr :: post)).1 = some pre.length ∧
    updateServerConfigLines n1 none (pre ++ hdr :: post) =
      updateServerConfigLines n2 none (pre ++ hdr :: post) := by
  have hsent12 : sentinel n1 <+: sentinel n2 := by
    obtain ⟨t, ht⟩ := hp
    exact ⟨t, by rw [sentinel, sentinel, ← ht, List.append_assoc]⟩
  have hhdr1 : containsSub (sentinel n1) hdr = true := by
    rw [containsSub_iff] at hhdr ⊢
    exact List.IsInfix.trans ( List.IsPrefix.isInfix hsent12) hhdr
  have hside : ∀ (m : Str) (l : Str), containsSub (str "### Client ") l = false →
      containsSub (sentinel m) l = false := by
    intro m l hl
    cases hc : containsSub (sentinel m) l with
    | false => rfl
    | true =>
      have := containsSub_sentinel_mono hc
      rw [hl] at this
      cases this
  have hpre1 : ∀ l ∈ pre, containsSub (sentinel n1) l = false :=
    fun l hl => hside n1 l (hpre l hl)
  have hpost1 : ∀ l ∈ post, containsSub (sentinel n1) l = false :=
    fun l hl => hside n1 l (hpost l hl)
  have hmem : hdr ∈ pre ++ hdr :: post :=
    List.mem_append_right _ (List.mem_cons_self _ _)
  have hce : clientExists sp st n1 = true := by
    have h1 : containsSub (sentinel n1) (renderDoc (pre ++ hdr :: post)) = true := by
      rw [containsSub_iff]
      exact List.IsInfix.trans ((containsSub_iff _ _).mp hhdr1)
        (mem_renderDoc_of_mem hmem)
    simp [clientExists, hdoc, h1]
  refine ⟨hce, ?_, ?_, ?_⟩
  · simp [addClient, hv, hce]
  · rw [findBounds_split (sentinel n1) pre hdr post hpre1 hhdr1 hpost1]
  · have hcong : ∀ l ∈ pre ++ hdr :: post,
        containsSub (sentinel n1) l = containsSub (sentinel n2) l := by
      intro l hl
      rcases List.mem_append.mp hl with h1 | h2
      · rw [hpre1 l h1, hside n2 l (hpre l h1)]
      · rcases List.mem_cons.mp h2 with h3 | h4
        · subst h3; rw [hhdr1, hhdr]
        · rw [hpost1 l h4, hside n2 l (hpost l h4)]
    have hfb : findBounds (sentinel n1) (pre ++ hdr :: post) =
        findBounds (sentinel n2) (pre ++ hdr :: post) :=
      findBoundsGo_congr (sentinel n1) (sentinel n2) (pre ++ hdr :: post) hcong 0 none
    unfold updateServerConfigLines
    rw [hfb]

theorem c9_substring_name_matching_witness :
    clientExists spAlloc ⟨[], some [str "x", str "### Client bobby", str "PublicKey = B"], []⟩
      (str "bob") = true ∧
    (addClient envDbFail spAlloc
      ⟨[], some [str "x", str "### Client bobby", str "PublicKey = B"], []⟩
      (str "bob") 0).1 = .error .conflict ∧
    (findBounds (sentinel (str "bob"))
      ([str "x"] ++ (str "### Client bobby") :: [str "PublicKey = B"])).1 =
      some ([str "x"] : List Str).length ∧
    updateServerConfigLines (str "bob") none
        ([str "x"] ++ (str "### Client bobby") :: [str "PublicKey = B"]) =
      updateServerConfigLines (str "bobby") none
        ([str "x"] ++ (str "### Client bobby") :: [str "PublicKey = B"]) :=
  c9_substring_name_matching envDbFail spAlloc
    ⟨[], some [str "x", str "### Client bobby", str "PublicKey = B"], []⟩
    (str "bob") (str "bobby") 0 [str "x"] (str "### Client bobby")
    [str "PublicKey = B"] (by decide) (by decide) (by decide) (by decide)
    (by decide) (by decide)

/-! ## Claim C7: reconciliation backfill -/

theorem dbAdd_mem_of_mem (ok : Bool) (db : List Rec) (x r : Rec) (h : r ∈ db) :
    r ∈ (dbAdd ok db x).2 := by
  unfold dbAdd
  split
  · exact List.mem_append_left _ h
  · exact h

theorem dbAdd_mem_cases (ok : Bool) (db : List Rec) (x : Rec) :
    ∀ r ∈ (dbAdd ok db x).2, r ∈ db ∨ r = x := by
  unfold dbAdd
  split
  · intro r hr
    rcases List.mem_append.mp hr with h | h
    · exact Or.inl h
    · simp at h
      exact Or.inr h
  · exact fun r hr => Or.inl hr

theorem dbAdd_named (db : List Rec) (x : Rec)
    (hinv : ∀ r ∈ db, r.name = x.name → r.createdBy = 0) (hx : x.createdBy = 0) :
    ∃ r ∈ (dbAdd true db x).2, r.name = x.name ∧ r.createdBy = 0 := by
  unfold dbAdd
  by_cases he : dbExists db x.name = true
  · simp only [he, Bool.not_true, Bool.and_false, Bool.false_eq_true, if_false]
    obtain ⟨r, hr, hrn⟩ := (dbExists_iff db x.name).mp he
    exact ⟨r, hr, hrn, hinv r hr hrn⟩
  · have he' : dbExists db x.name = false := by simpa using he
    simp only [he', Bool.not_false, Bool.and_true, if_true]
    exact ⟨x, List.mem_append_right _ (List.mem_cons_self _ _), rfl, hx⟩

theorem dbAdd_exists_ne (ok : Bool) (db : List Rec) (x : Rec) (n : Str)
    (h : x.name ≠ n) : dbExists (dbAdd ok db x).2 n = dbExists db n := by
  unfold dbAdd
  split
  · simp [dbExists, List.any_append, beq_iff_eq, h]
  · rfl

theorem addMissing_files_doc (env : Env) (sp : Params) (st : St) (n : Str) :
    (addMissingClientToDb env sp st n).files = st.files ∧
    (addMissingClientToDb env sp st n).doc = st.doc := by
  rcases hl : lookupFile st.files (clientPath sp n) with _ | content
  · simp [addMissingClientToDb, hl]
  · rcases hp : parseClientConfig env content with _ | info
    · simp [addMissingClientToDb, hl, hp]
    · simp [addMissingClientToDb, hl, hp]

theorem addMissing_mem_of_mem (env : Env) (sp : Params) (s : St) (m : Str)
    (r : Rec) (h : r ∈ s.db) : r ∈ (addMissingClientToDb env sp s m).db := by
  rcases hl : lookupFile s.files (clientPath sp m) with _ | content
  · simp only [addMissingClientToDb, hl]
    exact dbAdd_mem_of_mem _ _ _ _ h
  · rcases hp : parseClientConfig env content with _ | info
    · simp only [addMissingClientToDb, hl, hp]
      exact h
    · simp only [addMissingClientToDb, hl, hp]
      exact dbAdd_mem_of_mem _ _ _ _ h

theorem addMissing_db_cases (env : Env) (sp : Params) (s : St) (m : Str) :
    ∀ r ∈ (addMissingClientToDb env sp s m).db,
      r ∈ s.db ∨ (r.name = m ∧ r.createdBy = 0) := by
  rcases hl : lookupFile s.files (clientPath sp m) with _ | content
  · simp only [addMissingClientToDb, hl]
    intro r hr
    rcases dbAdd_mem_cases _ _ _ r hr with h | h
    · exact Or.inl h
    · subst h
      exact Or.inr ⟨rfl, rfl⟩
  · rcases hp : parseClientConfig env content with _ | info
    · simp only [addMissingClientToDb, hl, hp]
      exact fun r hr => Or.inl hr
    · simp only [addMissingClientToDb, hl, hp]
      intro r hr
      rcases dbAdd_mem_cases _ _ _ r hr with h | h
      · exact Or.inl h
      · subst h
        exact Or.inr ⟨rfl, rfl⟩

theorem foldAdd_mem_of_mem (env : Env) (sp : Params) :
    ∀ (ms : List Str) (s : St) (r : Rec), r ∈ s.db →
      r ∈ (ms.foldl (fun s n => addMissingClientToDb env sp s n) s).db := by
  intro ms
  induction ms with
  | nil => exact fun s r h => h
  | cons m t ih =>
    intro s r h
    exact ih _ r (addMissing_mem_of_mem env sp s m r h)

theorem foldAdd_files (env : Env) (sp : Params) :
    ∀ (ms : List Str) (s : St),
      (ms.foldl (fun s n => addMissingClientToDb env sp s n) s).files = s.files := by
  intro ms
  induction ms with
  | nil => exact fun s => rfl
  | cons m t ih =>
    intro s
    rw [List.foldl_cons, ih, (addMissing_files_doc env sp s m).1]

theorem foldAdd_inserts (env : Env) (sp : Params) (hdb : env.dbInsertOk = true)
    (n : Str) :
    ∀ (ms : List Str) (s : St),
      n ∈ ms →
      (lookupFile s.files (clientPath sp n) = none ∨
        ∃ content, lookupFile s.files (clientPath sp n) = some content ∧
          (parseClientConfig env content).isSome = true) →
      (∀ r ∈ s.db, r.name = n → r.createdBy = 0) →
      ∃ r ∈ (ms.foldl (fun s n => addMissingClientToDb env sp s n) s).db,
        r.name = n ∧ r.createdBy = 0 := by
  intro ms
  induction ms with
  | nil => intro s h; cases h
  | cons m t ih =>
    intro s hmem hfile hinv
    by_cases hnm : m = n
    · subst hnm
      have hrow : ∃ r ∈ (addMissingClientToDb env sp s m).db,
          r.name = m ∧ r.createdBy = 0 := by
        rcases hl : lookupFile s.files (clientPath sp m) with _ | content
        · simp only [addMissingClientToDb, hl, hdb]
          exact dbAdd_named s.db _ (fun r hr hrn => hinv r hr hrn) rfl
        · rcases hfile with hnone | ⟨c2, hc2, hps⟩
          · rw [hl] at hnone; cases hnone
          · rw [hl] at hc2
            injection hc2 with hc2
            subst hc2
            rcases hp : parseClientConfig env content with _ | info
            · rw [hp] at hps; cases hps
            · simp only [addMissingClientToDb, hl, hp, hdb]
              exact dbAdd_named s.db _ (fun r hr hrn => hinv r hr hrn) rfl
      obtain ⟨r, hr, hrn, hr0⟩ := hrow
      exact ⟨r, foldAdd_mem_of_mem env sp t _ r hr, hrn, hr0⟩
    · have hmem' : n ∈ t := by
        rcases List.mem_cons.mp hmem with h | h
        · exact absurd h.symm hnm
        · exact h
      apply ih (addMissingClientToDb env sp s m) hmem'
      · rw [(addMissing_files_doc env sp s m).1]
        exact hfile
      · intro r hr hrn
        rcases addMissing_db_cases env sp s m r hr with h | h
        · exact hinv r h hrn
        · exact h.2

theorem foldAdd_no_insert (env : Env) (sp : Params) (n content : Str)
    (hparse : parseClientConfig env content = none) :
    ∀ (ms : List Str) (s : St),
      lookupFile s.files (clientPath sp n) = some content →
      dbExists s.db n = false →
      dbExists ((ms.foldl (fun s n => addMissingClientToDb env sp s n) s)).db n
        = false := by
  intro ms
  induction ms with
  | nil => exact fun s _ h => h
  | cons m t ih =>
    intro s hlook hne
    rw [List.foldl_cons]
    apply ih (addMissingClientToDb env sp s m)
    · rw [(addMissing_files_doc env sp s m).1]
      exact hlook
    · by_cases hm : m = n
      · subst hm
        simp [addMissingClientToDb, hlook, hparse, hne]
      · rcases hl : lookupFile s.files (clientPath sp m) with _ | c2
        · simp only [addMissingClientToDb, hl]
          rw [dbAdd_exists_ne _ _ _ _ hm]
          exact hne
        · rcases hp : parseClientConfig env c2 with _ | info
          · simp only [addMissingClientToDb, hl, hp]
            exact hne
          · simp only [addMissingClientToDb, hl, hp]
            rw [dbAdd_exists_ne _ _ _ _ hm]
            exact hne

theorem mapNames_contains (db : List Rec) (n : Str) :
    ((db.map (fun r => r.name)).contains n) = dbExists db n := by
  induction db with
  | nil => rfl
  | cons r t ih =>
    simp only [List.map_cons, List.contains_cons, dbExists, List.any_cons]
    rw [← dbExists] at *
    rw [ih]
    by_cases h : r.name = n
    · simp [h]
    · have h1 : (n == r.name) = false := by
        rw [beq_eq_false_iff_ne]
        exact fun hq => h hq.symm
      have h2 : (r.name == n) = false := by
        rw [beq_eq_false_iff_ne]
        exact h
      rw [h1, h2]

/-- Environment used by the reconciliation fixtures: database inserts
succeed, the `wg` tool is unavailable for key derivation. -/
def envRecon : Env := ⟨none, false, false, .ok, true, fun _ => none, false, 3⟩

/-- State whose document names "carol" while her config file exists but
contains none of the expected fields. -/
def stUnparsable : St :=
  ⟨[(clientPath spAlloc (str "carol"), str "hello")],
   some [str "### Client carol"], []⟩

/-- Claim C7 is false as stated: "carol" is named in the document and absent
from the registry, her config file exists, yet reconciliation inserts no row
at all because the file parses to nothing. -/
theorem c7_counterexample :
    (lookupFile stUnparsable.files (clientPath spAlloc (str "carol"))).isSome
      = true ∧
    (str "carol") ∈ getClientsFromConfig [str "### Client carol"] ∧
    dbExists stUnparsable.db (str "carol") = false ∧
    (syncExistingClients envRecon spAlloc stUnparsable).db = [] := by decide

/-- Claim C7 (amended): for every name in the config document missing from
the registry, reconciliation inserts a row with `createdBy = 0` when the
client's config file is absent (minimal row) or parses to at least one
field; when the file exists but parses to nothing, no row is inserted for
that name; and no existing registry row is ever deleted. -/
theorem c7_reconciliation_backfill (env : Env) (sp : Params) (st : St)
    (lines : List Str)
    (hdoc : st.doc = some lines) (hdb : env.dbInsertOk = true) :
    (∀ r ∈ st.db, r ∈ (syncExistingClients env sp st).db) ∧
    (∀ n, n ∈ getClientsFromConfig lines → dbExists st.db n = false →
       (lookupFile st.files (clientPath sp n) = none ∨
         ∃ content, lookupFile st.files (clientPath sp n) = some content ∧
           (parseClientConfig env content).isSome = true) →
       ∃ r ∈ (syncExistingClients env sp st).db, r.name = n ∧ r.createdBy = 0) ∧
    (∀ n content, lookupFile st.files (clientPath sp n) = some content →
       parseClientConfig env content = none → dbExists st.db n = false →
       dbExists (syncExistingClients env sp st).db n = false) := by
  have hsync : syncExistingClients env sp st =
      ((getClientsFromConfig lines).filter
        (fun n => !((st.db.map (fun r => r.name)).contains n))).foldl
        (fun s n => addMissingClientToDb env sp s n) st := by
    simp [syncExistingClients, hdoc]
  refine ⟨?_, ?_, ?_⟩
  · intro r hr
    rw [hsync]
    exact foldAdd_mem_of_mem env sp _ st r hr
  · intro n hn hne hfile
    rw [hsync]
    have hmemfilter : n ∈ (getClientsFromConfig lines).filter
        (fun n => !((st.db.map (fun r => r.name)).contains n)) := by
      refine List.mem_filter.mpr ⟨hn, ?_⟩
      rw [Bool.not_eq_true', mapNames_contains]
      exact hne
    have hinv : ∀ r ∈ st.db, r.name = n → r.createdBy = 0 := by
      intro r hr hrn
      have hq : dbExists st.db n = true := (dbExists_iff _ _).mpr ⟨r, hr, hrn⟩
      rw [hne] at hq
      cases hq
    exact foldAdd_inserts env sp hdb n _ st hmemfilter hfile hinv
  · intro n content hlook hparse hne
    rw [hsync]
    exact foldAdd_no_insert env sp n content hparse _ st hlook hne

theorem c7_reconciliation_backfill_witness :
    ∃ r ∈ (syncExistingClients envRecon spAlloc
        ⟨[], some [str "### Client carol"], []⟩).db,
      r.name = str "carol" ∧ r.createdBy = 0 :=
  (c7_reconciliation_backfill envRecon spAlloc
    ⟨[], some [str "### Client carol"], []⟩ [str "### Client carol"] rfl rfl).2.1
    (str "carol") (by decide) (by decide) (Or.inl rfl)

end Userbot
